import Mathlib

/-!
Verification of the UI state machines of `src/App.tsx` (personal portfolio
single-page app): the `Typewriter` effect, the project category filter, the
`MatrixRain` canvas animator (`initDrops` / `draw`), the `useInView` fade-in
hook, the `useActiveSection` tracker, the `ScrollToTop` toggle, and the
teardown discipline of the subscriptions they create.

Strings are modelled as `List Char`, DOM/browser randomness as explicit
Boolean oracles, and time as the discrete sequence of timer ticks (the k-th
tick of an interval timer with period `T` fires at elapsed time `k*T`).
-/

namespace Portfolio

/-! Definitions.

Typewriter (`src/App.tsx` lines 136-161).  The effect body runs on
(re)start, i.e. whenever `text` or `speed` changes: it sets `i = 0`,
`setDisplayed('')`, `setDone(false)`, then installs an interval.  Each tick
does `i++; setDisplayed(text.slice(0, i)); if (i >= text.length)
{ setDone(true); clearInterval(interval) }`.  The field `running` models
whether the interval is still installed (`clearInterval` not yet run). -/

structure TwState where
  i : Nat
  displayed : List Char
  done : Bool
  running : Bool
  deriving DecidableEq, Repr

/-- State right after the `Typewriter` effect body runs: counter `0`,
`setDisplayed('')`, `setDone(false)`, interval installed. -/
def twStart : TwState :=
  { i := 0, displayed := [], done := false, running := true }

/-- One firing of the `setInterval` callback of `Typewriter`.  If the
interval has been cleared nothing fires, so the state is unchanged. -/
def twTick (text : List Char) (s : TwState) : TwState :=
  if s.running then
    let j := s.i + 1
    let fin := decide (text.length ≤ j)
    { i := j, displayed := text.take j, done := s.done || fin, running := !fin }
  else s

/-- Typewriter state after `k` interval periods have elapsed since
(re)start with target `text` (i.e. after `k` tick opportunities). -/
def twAfter (text : List Char) : Nat → TwState
  | 0 => twStart
  | k + 1 => twTick text (twAfter text k)

/-! Project data model and category filter (`src/App.tsx` lines 189-205 and
384-392). -/

inductive Category where
  | all
  | security
  | networking
  | development
  deriving DecidableEq, Repr

structure Project where
  title : String
  category : Category
  association : Option String
  description : String
  skills : List String
  deriving DecidableEq, Repr

/-- The memo `filteredProjects` from `App`: `activeCategory === 'All'
? projects : projects.filter((p) => p.category === activeCategory)`. -/
def filteredProjects (activeCategory : Category) (projects : List Project) : List Project :=
  if activeCategory = Category.all then projects
  else projects.filter (fun p => decide (p.category = activeCategory))

def sampleProjectA : Project :=
  { title := "Net Scanner", category := Category.security,
    association := none, description := "port scanning tool",
    skills := ["nmap"] }

def sampleProjectB : Project :=
  { title := "Router Lab", category := Category.networking,
    association := some "IPL", description := "routing lab",
    skills := ["ospf"] }

/-! MatrixRain glyph grid (`src/App.tsx` lines 84-109). -/

/-- Source constant `const fontSize = 14`: the glyph cell size of the rain
grid. -/
def fontSize : Nat := 14

/-- The value `Array(columns).fill(1)` puts in every descent counter. -/
def dropBaseline : Nat := 1

/-- The routine `initDrops`: recompute the column count from the viewport
width and allocate a fresh descent-counter array (runs at mount and on
every `resize` event).  Returns `(columns, drops)`. -/
def initDrops (width : Nat) : Nat × List Nat :=
  (width / fontSize, List.replicate (width / fontSize) dropBaseline)

/-- Helper for one `draw` tick, walking the columns from index `i`.  For
each column `draw` renders a glyph and then runs `if (drops[i] * fontSize >
canvas.height && Math.random() > 0.975) drops[i] = 0; drops[i]++`.  The
oracle `r i` models the outcome of the `Math.random() > 0.975` draw for
column `i` of this tick. -/
def drawStepAux (height : Nat) (r : Nat → Bool) : Nat → List Nat → List Nat
  | _, [] => []
  | i, d :: ds =>
      ((if decide (height < d * fontSize) && r i then 0 else d) + 1) ::
        drawStepAux height r (i + 1) ds

/-- The descent-counter array after one `draw` tick. -/
def drawStep (height : Nat) (r : Nat → Bool) (drops : List Nat) : List Nat :=
  drawStepAux height r 0 drops

/-! The useInView fade-in hook (`src/App.tsx` lines 13-33 and 62-73).
`FadeInSection` calls `useInView` with threshold 0.1: the observer callback
fires with `entry.isIntersecting` true exactly when at least 10% of the
section intersects the viewport.  On such an entry the hook sets
`inView = true` and unobserves the element (one-shot); it never sets
`inView` back to `false`. -/

structure InViewState where
  inView : Bool
  observing : Bool
  deriving DecidableEq, Repr

/-- Hook state at mount: `useState(false)` and the element observed. -/
def inViewInit : InViewState := { inView := false, observing := true }

/-- One intersection notification; `hit` is `entry.isIntersecting`
(at least 10% of the section's area intersects the viewport).
Notifications are only delivered while the element is observed. -/
def inViewNotify (s : InViewState) (hit : Bool) : InViewState :=
  if s.observing && hit then { inView := true, observing := false } else s

/-- Hook state after a sequence of intersection notifications. -/
def inViewRun (events : List Bool) : InViewState :=
  events.foldl inViewNotify inViewInit

/-! ScrollToTop (`src/App.tsx` lines 163-172).  The scroll handler is
`setVisible(window.scrollY > window.innerHeight)`; it overwrites the flag
on every scroll event regardless of its previous value. -/

/-- One firing of the `ScrollToTop` scroll handler. -/
def scrollToTopOnScroll (_visible : Bool) (scrollY innerHeight : Nat) : Bool :=
  decide (innerHeight < scrollY)

/-- The visibility flag after a whole trace of sampled scroll events,
each sample a pair `(scrollY, innerHeight)`. -/
def scrollToTopRun (v0 : Bool) (samples : List (Nat × Nat)) : Bool :=
  samples.foldl (fun v s => scrollToTopOnScroll v s.1 s.2) v0

/-! Scroll-event listeners (`src/App.tsx` lines 166-170 for `ScrollToTop`,
239-243 for `Header`).  Each effect runs
`window.addEventListener('scroll', onScroll)` at mount and
`window.removeEventListener('scroll', onScroll)` at cleanup; the registry of
installed scroll listeners is a list of handler handles, and each
component's `onScroll` closure is a handle distinct from every handler
already registered. -/

/-- The scroll-listener registry after a component effect body runs:
`addEventListener` appends the component's handler. -/
def scrollMount (listeners : List Nat) (handler : Nat) : List Nat :=
  listeners ++ [handler]

/-- The scroll-listener registry after the effect's cleanup:
`removeEventListener` removes the same handler the mount added. -/
def scrollTeardown (listeners : List Nat) (handler : Nat) : List Nat :=
  listeners.erase handler

/-! Subscription lifecycle of MatrixRain (`src/App.tsx` lines 111-125).
The effect stores the latest `requestAnimationFrame` handle in
`animationFrameId`; each invocation of `animate` re-schedules itself first,
so exactly one frame request is pending at any time and the stored handle
is always that pending request.  The cleanup runs
`cancelAnimationFrame(animationFrameId)` and
`window.removeEventListener('resize', initDrops)`. -/

structure RainSys where
  pendingFrames : List Nat
  nextFrameId : Nat
  storedId : Nat
  resizeListeners : List Nat
  deriving DecidableEq, Repr

/-- Browser state right after the `MatrixRain` effect body: one frame
request pending (handle `0`) recorded in `animationFrameId`, and the
`resize` listener (handle `0`) installed. -/
def rainMount : RainSys :=
  { pendingFrames := [0], nextFrameId := 1, storedId := 0,
    resizeListeners := [0] }

/-- The browser fires the pending frame request (if any): `animate` runs
and immediately re-schedules itself, storing the fresh handle. -/
def rainFrame (s : RainSys) : RainSys :=
  match s.pendingFrames with
  | [] => s
  | _ :: rest =>
    { s with pendingFrames := rest ++ [s.nextFrameId],
             storedId := s.nextFrameId,
             nextFrameId := s.nextFrameId + 1 }

/-- The effect's cleanup: `cancelAnimationFrame(animationFrameId)` and
removal of the `resize` listener. -/
def rainTeardown (s : RainSys) : RainSys :=
  { s with pendingFrames := s.pendingFrames.erase s.storedId,
           resizeListeners := s.resizeListeners.erase 0 }

/-- The system after mount followed by `n` fired animation frames. -/
def rainRun : Nat → RainSys
  | 0 => rainMount
  | n + 1 => rainFrame (rainRun n)

/-! Observer cleanup of the viewport trackers (`src/App.tsx` lines 38-55
and 17-29).  The hook `useActiveSection` keeps every created
`IntersectionObserver` in `observers` and its cleanup runs
`observers.forEach((o) => o.disconnect())`; the cleanup of `useInView`
unobserves its single element. -/

/-- The observers still delivering callbacks after the handles in
`disconnected` have been disconnected. -/
def liveAfter (created disconnected : List Nat) : List Nat :=
  created.filter (fun o => !(decide (o ∈ disconnected)))

/-- Observers still live after the `useActiveSection` cleanup, which
disconnects exactly the observers it created. -/
def observersAfterCleanup (created : List Nat) : List Nat :=
  liveAfter created created

/-! Registration in useActiveSection (`src/App.tsx` lines 38-55).  For each
id the hook does `const el = document.getElementById(id); if (!el) return;`
and only then creates and registers an observer.  The DOM is modelled by
the predicate `dom : String → Bool` telling which element ids exist at
registration time. -/

/-- The section ids for which `useActiveSection` registers an observer. -/
def registeredSections (dom : String → Bool) (ids : List String) : List String :=
  ids.filter dom

/-- Sample DOM for the witness: only the element `about` exists. -/
def sampleDom : String → Bool := fun id => id == "about"

end Portfolio

namespace Portfolio

/-! Helper lemmas: closed form of the typewriter run. -/

theorem twAfter_lt (text : List Char) :
    ∀ k, k < text.length →
      twAfter text k = { i := k, displayed := text.take k, done := false, running := true } := by
  intro k
  induction k with
  | zero => intro _; simp [twAfter, twStart]
  | succ k ih =>
    intro hk
    have hk' : k < text.length := Nat.lt_of_succ_lt hk
    have hfin : ¬ text.length ≤ k + 1 := Nat.not_le_of_lt hk
    simp [twAfter, ih hk', twTick, hfin]

theorem twAfter_ge (text : List Char) (hne : text ≠ []) :
    ∀ k, text.length ≤ k →
      twAfter text k = { i := text.length, displayed := text, done := true, running := false } := by
  intro k
  induction k with
  | zero =>
    intro h0
    exact absurd (List.eq_nil_of_length_eq_zero (Nat.le_zero.mp h0)) hne
  | succ k ih =>
    intro hk
    rcases Nat.lt_or_ge k text.length with hlt | hge
    · have hkeq : text.length = k + 1 := Nat.le_antisymm hk hlt
      have hfin : text.length ≤ k + 1 := hk
      simp [twAfter, twAfter_lt text k hlt, twTick, hfin, hkeq, List.take_length]
    · simp [twAfter, ih hge, twTick]

theorem twAfter_displayed (text : List Char) (hne : text ≠ []) (k : Nat) :
    (twAfter text k).displayed = text.take k := by
  rcases Nat.lt_or_ge k text.length with hlt | hge
  · rw [twAfter_lt text k hlt]
  · rw [twAfter_ge text hne k hge]
    exact (List.take_of_length_le hge).symm

theorem twAfter_done (text : List Char) (hne : text ≠ []) (k : Nat) :
    (twAfter text k).done = decide (text.length ≤ k) := by
  rcases Nat.lt_or_ge k text.length with hlt | hge
  · rw [twAfter_lt text k hlt]
    simp [Nat.not_le_of_lt hlt]
  · rw [twAfter_ge text hne k hge]
    simp [hge]

theorem twAfter_empty_succ : ∀ k, twAfter ([] : List Char) (k + 1) =
    { i := 1, displayed := [], done := true, running := false } := by
  intro k
  induction k with
  | zero => simp [twAfter, twStart, twTick]
  | succ k ih =>
    show twTick [] (twAfter [] (k + 1)) =
      { i := 1, displayed := [], done := true, running := false }
    rw [ih]
    simp [twTick]

/-- C1 (amended to nonempty targets): for a nonempty target string of length
`N` rendered with tick period `T > 0`, the `Typewriter` starts at the empty
string with `done = false`, after `k` ticks (elapsed time `k*T`) displays
exactly the first `k` characters, is `done` iff at least `N*T` time has
elapsed, and stops ticking after the `N`-th tick (the state is frozen); a
restart (`twStart`) is the `k = 0` state: empty prefix and not-done. -/
theorem typewriter_prefix_and_done (text : List Char) (T j : Nat)
    (hne : text ≠ []) (hT : 0 < T) (k : Nat) :
    (twAfter text 0).displayed = [] ∧
    (twAfter text 0).done = false ∧
    (twAfter text k).displayed = text.take k ∧
    ((twAfter text k).done = true ↔ text.length * T ≤ k * T) ∧
    twAfter text (text.length + j) = twAfter text text.length := by
  refine ⟨rfl, rfl, twAfter_displayed text hne k, ?_, ?_⟩
  · rw [twAfter_done text hne k]
    constructor
    · intro h
      exact Nat.mul_le_mul_right T (of_decide_eq_true h)
    · intro h
      exact decide_eq_true (Nat.le_of_mul_le_mul_right h hT)
  · rw [twAfter_ge text hne (text.length + j) (Nat.le_add_right _ _),
        twAfter_ge text hne text.length (Nat.le_refl _)]

theorem typewriter_prefix_and_done_witness :
    (['a', 'b'] ≠ ([] : List Char)) ∧ 0 < 2 ∧
    ((twAfter ['a', 'b'] 0).displayed = [] ∧
     (twAfter ['a', 'b'] 0).done = false ∧
     (twAfter ['a', 'b'] 3).displayed = (['a', 'b']).take 3 ∧
     ((twAfter ['a', 'b'] 3).done = true ↔
        (['a', 'b'] : List Char).length * 2 ≤ 3 * 2) ∧
     twAfter ['a', 'b'] ((['a', 'b'] : List Char).length + 5) =
       twAfter ['a', 'b'] (['a', 'b'] : List Char).length) :=
  ⟨by decide, by decide,
    typewriter_prefix_and_done ['a', 'b'] 2 5 (by decide) (by decide) 3⟩

/-- C1 fails as stated on the empty target string: with `N = 0` and `T = 1`,
`N*T = 0` time has elapsed already at restart, yet the component's `done`
state is `false` there (the effect body resets it and the first tick has not
fired), so "done iff at least `N*T` elapsed" is violated at `k = 0`. -/
theorem typewriter_empty_counterexample :
    ¬ (((twAfter ([] : List Char) 0).done = true) ↔
        ([] : List Char).length * 1 ≤ 0 * 1) := by
  decide

/-- C10: for the empty target string the `Typewriter` is not immediately
done: it starts not-done with the empty display, the display stays empty
forever, `done` becomes true at the first tick (one full interval after
restart), and from then on the state never changes (ticking has stopped). -/
theorem typewriter_empty_first_tick :
    (twAfter ([] : List Char) 0).done = false ∧
    (∀ k, (twAfter ([] : List Char) k).displayed = []) ∧
    (twAfter ([] : List Char) 1).done = true ∧
    (∀ k, twAfter ([] : List Char) (k + 1) = twAfter [] 1) := by
  refine ⟨rfl, ?_, ?_, ?_⟩
  · intro k
    cases k with
    | zero => rfl
    | succ k => rw [twAfter_empty_succ k]
  · rw [twAfter_empty_succ 0]
  · intro k
    rw [twAfter_empty_succ k, twAfter_empty_succ 0]

/-- C2: selecting `All` yields the full project list unchanged, and selecting
any other category `c` yields exactly the records whose category equals `c`,
as a subsequence of the original list (original order preserved). -/
theorem filteredProjects_spec (projects : List Project) (c : Category)
    (hc : c ≠ Category.all) :
    filteredProjects Category.all projects = projects ∧
    filteredProjects c projects =
      projects.filter (fun p => decide (p.category = c)) ∧
    List.Sublist (filteredProjects c projects) projects ∧
    ∀ p, p ∈ filteredProjects c projects ↔ p ∈ projects ∧ p.category = c := by
  refine ⟨by simp [filteredProjects], by simp [filteredProjects, hc], ?_, ?_⟩
  · simp only [filteredProjects, if_neg hc]
    exact List.filter_sublist projects
  · intro p
    simp [filteredProjects, hc, List.mem_filter]

theorem filteredProjects_spec_witness :
    (Category.security ≠ Category.all) ∧
    filteredProjects Category.security [sampleProjectA, sampleProjectB] =
      List.filter (fun p => decide (p.category = Category.security))
        [sampleProjectA, sampleProjectB] :=
  ⟨by decide,
    (filteredProjects_spec [sampleProjectA, sampleProjectB] Category.security
        (by decide)).2.1⟩

/-- C3: on initialization and on every resize, the column count is
`floor(width / fontSize)`, the fresh counter array has exactly that length,
and every counter holds the same positive baseline constant `1`. -/
theorem initDrops_spec (width : Nat) :
    (initDrops width).1 = width / fontSize ∧
    (initDrops width).2.length = (initDrops width).1 ∧
    ((initDrops width).2.all fun d => decide (d = dropBaseline)) = true ∧
    0 < dropBaseline := by
  refine ⟨rfl, by simp [initDrops], ?_, by decide⟩
  simp [initDrops, List.all_eq_true, List.eq_of_mem_replicate]

/-- C5: at every sampled scroll event the visibility boolean equals exactly
`scrollY > innerHeight` — true iff the offset exceeds one viewport height —
independently of the previous flag value and of any earlier samples. -/
theorem scrollToTop_visible_spec (v : Bool) (y h : Nat)
    (samples : List (Nat × Nat)) :
    (scrollToTopOnScroll v y h = true ↔ h < y) ∧
    scrollToTopRun v (samples ++ [(y, h)]) = scrollToTopOnScroll v y h := by
  constructor
  · simp [scrollToTopOnScroll]
  · simp [scrollToTopRun, List.foldl_append, scrollToTopOnScroll]

/-! Helper lemmas for the fade-in hook. -/

theorem inViewNotify_mono (s : InViewState) (e : Bool) (h : s.inView = true) :
    (inViewNotify s e).inView = true := by
  unfold inViewNotify
  split
  · rfl
  · exact h

theorem inView_foldl_mono :
    ∀ (evs : List Bool) (s : InViewState), s.inView = true →
      (evs.foldl inViewNotify s).inView = true := by
  intro evs
  induction evs with
  | nil => intro s h; exact h
  | cons e evs ih =>
    intro s h
    exact ih (inViewNotify s e) (inViewNotify_mono s e h)

theorem inView_foldl_done (evs : List Bool) :
    evs.foldl inViewNotify { inView := true, observing := false } =
      { inView := true, observing := false } := by
  induction evs with
  | nil => rfl
  | cons e evs ih => simpa [inViewNotify] using ih

theorem inViewRun_eq (evs : List Bool) :
    inViewRun evs =
      if evs.any (fun b => b) then { inView := true, observing := false }
      else inViewInit := by
  induction evs with
  | nil => rfl
  | cons e evs ih =>
    cases e with
    | true =>
      show evs.foldl inViewNotify (inViewNotify inViewInit true) = _
      simp [inViewNotify, inViewInit, inView_foldl_done]
    | false =>
      show evs.foldl inViewNotify (inViewNotify inViewInit false) = _
      simpa [inViewNotify, inViewInit] using ih

/-- C4: a section starts hidden; it becomes visible exactly when some
notification reports at least 10% intersection, at which point the
observation is cancelled (`observing = false`); and visibility is
monotonic — from any visible state, no sequence of further notifications
ever reverts it. -/
theorem useInView_monotonic (s : InViewState) (e : Bool)
    (evs more : List Bool) (h : s.inView = true) :
    inViewInit.inView = false ∧
    (inViewRun evs =
      if evs.any (fun b => b) then { inView := true, observing := false }
      else inViewInit) ∧
    (inViewNotify s e).inView = true ∧
    (more.foldl inViewNotify s).inView = true :=
  ⟨rfl, inViewRun_eq evs, inViewNotify_mono s e h, inView_foldl_mono more s h⟩

theorem useInView_monotonic_witness :
    ({ inView := true, observing := false } : InViewState).inView = true ∧
    (inViewRun [false, true, false] =
      if [false, true, false].any (fun b => b) then
        { inView := true, observing := false }
      else inViewInit) :=
  ⟨rfl,
    (useInView_monotonic { inView := true, observing := false } false
        [false, true, false] [false, false] rfl).2.1⟩

/-! Helper lemmas for the draw tick. -/

theorem drawStepAux_length (height : Nat) (r : Nat → Bool) :
    ∀ (ds : List Nat) (i : Nat), (drawStepAux height r i ds).length = ds.length := by
  intro ds
  induction ds with
  | nil => intro i; rfl
  | cons d ds ih => intro i; simp [drawStepAux, ih]

theorem drawStepAux_getD (height : Nat) (r : Nat → Bool) :
    ∀ (ds : List Nat) (i j : Nat), j < ds.length →
      (drawStepAux height r i ds).getD j 0 =
        (if decide (height < ds.getD j 0 * fontSize) && r (i + j) then 0
         else ds.getD j 0) + 1 := by
  intro ds
  induction ds with
  | nil => intro i j hj; exact absurd hj (by simp)
  | cons d ds ih =>
    intro i j hj
    cases j with
    | zero => simp only [drawStepAux, List.getD_cons_zero, Nat.add_zero]
    | succ j =>
      have hj' : j < ds.length := Nat.lt_of_succ_lt_succ hj
      have hidx : i + 1 + j = i + (j + 1) := by omega
      have h2 := ih (i + 1) j hj'
      rw [hidx] at h2
      simp only [drawStepAux, List.getD_cons_succ]
      exact h2

theorem drawStepAux_mem_pos (height : Nat) (r : Nat → Bool) :
    ∀ (ds : List Nat) (i : Nat) (d : Nat), d ∈ drawStepAux height r i ds → 1 ≤ d := by
  intro ds
  induction ds with
  | nil => intro i d hd; exact absurd hd (by simp [drawStepAux])
  | cons x ds ih =>
    intro i d hd
    rw [drawStepAux, List.mem_cons] at hd
    rcases hd with hd | hd
    · rw [hd]; exact Nat.succ_le_succ (Nat.zero_le _)
    · exact ih (i + 1) d hd

/-- C6: on each tick every column's counter is advanced by one cell (`++`);
it is additionally zeroed first — so ends the tick back at `1`, the top —
only when its descent `drops[i] * fontSize` exceeds the viewport height AND
the random draw fires, so the reset is probabilistic, not deterministic; a
column whose descent does not exceed the viewport height is never reset. -/
theorem draw_advance_reset (height : Nat) (r : Nat → Bool)
    (drops : List Nat) (i : Nat) (hi : i < drops.length) :
    (drawStep height r drops).getD i 0 =
      (if decide (height < drops.getD i 0 * fontSize) && r i then 0
       else drops.getD i 0) + 1 ∧
    (drops.getD i 0 * fontSize ≤ height →
      (drawStep height r drops).getD i 0 = drops.getD i 0 + 1) ∧
    (height < drops.getD i 0 * fontSize →
      ((drawStep height r drops).getD i 0 = 1 ↔ r i = true)) := by
  have hbase : (drawStep height r drops).getD i 0 =
      (if decide (height < drops.getD i 0 * fontSize) && r i then 0
       else drops.getD i 0) + 1 := by
    have h := drawStepAux_getD height r drops 0 i hi
    rw [Nat.zero_add] at h
    exact h
  refine ⟨hbase, ?_, ?_⟩
  · intro hle
    rw [hbase]
    simp only [decide_eq_false (not_lt.mpr hle), Bool.false_and,
      Bool.false_eq_true, if_false]
  · intro hgt
    have hd : 1 ≤ drops.getD i 0 := by
      rcases Nat.eq_zero_or_pos (drops.getD i 0) with h0 | h1
      · rw [h0] at hgt
        simp at hgt
      · exact h1
    rw [hbase]
    cases hr : r i with
    | true =>
      simp only [decide_eq_true hgt, hr, Bool.and_true, if_true]
    | false =>
      simp only [hr, Bool.and_false, Bool.false_eq_true, if_false]
      constructor
      · intro habs
        exfalso
        omega
      · intro habs
        simp at habs

theorem draw_advance_reset_witness :
    (0 < List.length [100, 1]) ∧
    (50 < List.getD [100, 1] 0 0 * fontSize) ∧
    ((drawStep 50 (fun _ => true) [100, 1]).getD 0 0 = 1 ↔
      (fun _ => true) 0 = true) :=
  ⟨by decide, by decide,
    (draw_advance_reset 50 (fun _ => true) [100, 1] 0 (by decide)).2.2
      (by decide)⟩

/-- C9: after `initDrops` and after every completed `draw` tick, every
descent counter is at least `1` (a reset writes `0` but the unconditional
`drops[i]++` in the same iteration restores it to `1`), and the array length
always matches the column count (`initDrops` allocates exactly `columns`
entries and `draw` preserves the length). -/
theorem drops_invariant (width height : Nat) (r : Nat → Bool)
    (drops : List Nat) :
    ((initDrops width).2.all fun d => decide (1 ≤ d)) = true ∧
    (initDrops width).2.length = (initDrops width).1 ∧
    (drawStep height r drops).length = drops.length ∧
    ((drawStep height r drops).all fun d => decide (1 ≤ d)) = true := by
  refine ⟨?_, by simp [initDrops], drawStepAux_length height r drops 0, ?_⟩
  · simp [initDrops, List.all_eq_true, dropBaseline, List.eq_of_mem_replicate]
  · rw [List.all_eq_true]
    intro d hd
    exact decide_eq_true (drawStepAux_mem_pos height r drops 0 d hd)

/-! Helper lemmas for the subscription lifecycle. -/

theorem rainFrame_single (s : RainSys) (h : s.pendingFrames = [s.storedId]) :
    rainFrame s =
      { pendingFrames := [s.nextFrameId], nextFrameId := s.nextFrameId + 1,
        storedId := s.nextFrameId, resizeListeners := s.resizeListeners } := by
  unfold rainFrame
  rw [h]
  rfl

theorem rainRun_invariant (n : Nat) :
    (rainRun n).pendingFrames = [(rainRun n).storedId] ∧
    (rainRun n).resizeListeners = [0] := by
  induction n with
  | zero => exact ⟨rfl, rfl⟩
  | succ n ih =>
    have hstep : rainRun (n + 1) =
        { pendingFrames := [(rainRun n).nextFrameId],
          nextFrameId := (rainRun n).nextFrameId + 1,
          storedId := (rainRun n).nextFrameId,
          resizeListeners := (rainRun n).resizeListeners } :=
      rainFrame_single (rainRun n) ih.1
    rw [hstep]
    exact ⟨rfl, ih.2⟩

/-- C7: after teardown no subscription created at initialization is left.
Tearing down `MatrixRain` after any number of animation frames cancels the
one pending frame request and removes the resize listener (nothing is left
to fire, and firing a frame on the torn-down system is a no-op); the
observer-based trackers (`useInView`, `useActiveSection`) disconnect every
observer they created, leaving none live; and each scroll-listening
component (`ScrollToTop`, `Header`) removes at cleanup exactly the scroll
handler its mount added, so the registry returns to its prior state and the
component's handler can never fire again. -/
theorem teardown_no_dangling (n : Nat) (created listeners : List Nat)
    (handler : Nat) (hfresh : handler ∉ listeners) :
    (rainTeardown (rainRun n)).pendingFrames = [] ∧
    (rainTeardown (rainRun n)).resizeListeners = [] ∧
    rainFrame (rainTeardown (rainRun n)) = rainTeardown (rainRun n) ∧
    observersAfterCleanup created = [] ∧
    scrollTeardown (scrollMount listeners handler) handler = listeners ∧
    handler ∉ scrollTeardown (scrollMount listeners handler) handler := by
  obtain ⟨hp, hr⟩ := rainRun_invariant n
  have hpend : (rainTeardown (rainRun n)).pendingFrames = [] := by
    show (rainRun n).pendingFrames.erase (rainRun n).storedId = []
    rw [hp, List.erase_cons_head]
  have hscroll : scrollTeardown (scrollMount listeners handler) handler = listeners := by
    rw [scrollTeardown, scrollMount, List.erase_append_right _ hfresh,
      List.erase_cons_head, List.append_nil]
  refine ⟨hpend, ?_, ?_, ?_, hscroll, ?_⟩
  · show (rainRun n).resizeListeners.erase 0 = []
    rw [hr, List.erase_cons_head]
  · rw [rainFrame, hpend]
  · rw [observersAfterCleanup, liveAfter, List.filter_eq_nil_iff]
    intro o ho
    simp [ho]
  · rw [hscroll]
    exact hfresh

theorem teardown_no_dangling_witness :
    (7 ∉ [3]) ∧
    ((rainTeardown (rainRun 2)).pendingFrames = [] ∧
     (rainTeardown (rainRun 2)).resizeListeners = [] ∧
     rainFrame (rainTeardown (rainRun 2)) = rainTeardown (rainRun 2) ∧
     observersAfterCleanup [5] = [] ∧
     scrollTeardown (scrollMount [3] 7) 7 = [3] ∧
     7 ∉ scrollTeardown (scrollMount [3] 7) 7) :=
  ⟨by decide, teardown_no_dangling 2 [5] [3] 7 (by decide)⟩

/-- C8: a section id whose element is missing at registration time is
silently skipped — no observer is registered for it and registration of the
others proceeds (the registered ids are exactly the existing ones, in their
original order, so registration never fails). -/
theorem useActiveSection_skips_missing (dom : String → Bool)
    (ids : List String) (id : String) :
    (id ∈ registeredSections dom ids ↔ id ∈ ids ∧ dom id = true) ∧
    List.Sublist (registeredSections dom ids) ids ∧
    (dom id = false → id ∉ registeredSections dom ids) := by
  refine ⟨by simp [registeredSections, List.mem_filter], List.filter_sublist ids, ?_⟩
  intro hmiss hmem
  rw [registeredSections, List.mem_filter] at hmem
  rw [hmiss] at hmem
  exact Bool.false_ne_true hmem.2

theorem useActiveSection_skips_missing_witness :
    (sampleDom "education" = false) ∧
    "education" ∉ registeredSections sampleDom ["about", "education"] :=
  ⟨by decide,
    (useActiveSection_skips_missing sampleDom ["about", "education"]
        "education").2.2 (by decide)⟩

end Portfolio
